import Mathlib

/-!
Verification of the Vyx client session core against its natural-language
specification.  The Go sources are shallowly embedded: Go byte slices and
Go strings become `List Nat` (byte sequences), machine integers become
`Nat` with explicit `% 2^w` where the source truncates, and effectful
steps (network dials, DNS lookups, HTTP fetches, channel sends) become
explicit parameters or environment records describing the outcome of the
corresponding I/O action.  Every definition follows the Go control flow of
the file it names.
-/

namespace Vyx

/-! ## Binary frame codec — `conn/connection.go`, `WriteBinaryMessage` / `ReadBinaryMessage`

Format: `[1 byte: type][2 bytes: ID len][ID bytes][2 bytes: addr len]
[addr bytes][4 bytes: data len][data bytes]`, big-endian lengths.
`uint16(len(msg.ID))` truncates modulo 2^16 and the body is written only
when the truncated length is positive, exactly as in the source.
-/

/-- A message in binary format: Go struct `BinaryMessage` with
`Type byte`, `ID string`, `Addr string`, `Data []byte`.  Strings and byte
slices are both byte sequences. -/
structure BinaryMessage where
  type : Nat
  id : List Nat
  addr : List Nat
  data : List Nat
  deriving DecidableEq, Repr

/-- Big-endian encoding of `uint16(n)`: the two bytes written by
`binary.Write(w, binary.BigEndian, uint16(n))`. -/
def encodeU16 (n : Nat) : List Nat :=
  [n / 256 % 256, n % 256]

/-- Big-endian encoding of `uint32(n)`: the four bytes written by
`binary.Write(w, binary.BigEndian, uint32(n))`. -/
def encodeU32 (n : Nat) : List Nat :=
  [n / 16777216 % 256, n / 65536 % 256, n / 256 % 256, n % 256]

/-- The byte stream produced by `WriteBinaryMessage` on a message.  Each
length is truncated to its wire width first (`uint16(len(msg.ID))` etc.),
and the body bytes are written only under the source's `if idLen > 0`
guard (note the guard tests the truncated length). -/
def writeBinaryMessage (msg : BinaryMessage) : List Nat :=
  let idLen := msg.id.length % 65536
  let addrLen := msg.addr.length % 65536
  let dataLen := msg.data.length % 4294967296
  [msg.type]
    ++ encodeU16 msg.id.length
    ++ (if idLen > 0 then msg.id else [])
    ++ encodeU16 msg.addr.length
    ++ (if addrLen > 0 then msg.addr else [])
    ++ encodeU32 msg.data.length
    ++ (if dataLen > 0 then msg.data else [])

/-- Read one byte from the stream; `binary.Read` fails on an empty
stream. -/
def readByte : List Nat → Option (Nat × List Nat)
  | [] => none
  | b :: rest => some (b, rest)

/-- Read exactly `n` bytes (`io.ReadFull`): fails unless the stream holds
at least `n` bytes. -/
def readBytes (n : Nat) (s : List Nat) : Option (List Nat × List Nat) :=
  if s.length < n then none else some (s.take n, s.drop n)

/-- Read a big-endian `uint16`. -/
def readU16 (s : List Nat) : Option (Nat × List Nat) :=
  match readByte s with
  | none => none
  | some (hi, s1) =>
    match readByte s1 with
    | none => none
    | some (lo, s2) => some (hi * 256 + lo, s2)

/-- Read a big-endian `uint32`. -/
def readU32 (s : List Nat) : Option (Nat × List Nat) :=
  match readU16 s with
  | none => none
  | some (hi, s1) =>
    match readU16 s1 with
    | none => none
    | some (lo, s2) => some (hi * 65536 + lo, s2)

/-- Read a length-guarded body: the source reads the body bytes only under
`if idLen > 0`, leaving the field at its zero value (empty) otherwise. -/
def readChunk (n : Nat) (s : List Nat) : Option (List Nat × List Nat) :=
  if n > 0 then readBytes n s else some ([], s)

/-- `ReadBinaryMessage`: parse type byte, then the three length-prefixed
fields, returning the parsed message and the unconsumed rest of the
stream.  Each failing read aborts the whole parse, as every `binary.Read`
or `io.ReadFull` error returns from the Go function. -/
def readBinaryMessage (s : List Nat) : Option (BinaryMessage × List Nat) :=
  (readByte s).bind (fun ty =>
  (readU16 ty.2).bind (fun idLen =>
  (readChunk idLen.1 idLen.2).bind (fun id =>
  (readU16 id.2).bind (fun addrLen =>
  (readChunk addrLen.1 addrLen.2).bind (fun addr =>
  (readU32 addr.2).bind (fun dataLen =>
  (readChunk dataLen.1 dataLen.2).map (fun data =>
  (⟨ty.1, id.1, addr.1, data.1⟩, data.2))))))))

/-! ## Retry delay — `getRetryDelay` in the connection supervisor -/

/-- `getRetryDelay(attempt, authFailed, notLoggedIn)` in seconds:
`notLoggedIn` wins, then `authFailed`, then the progressive backoff
switch; `5 * time.Minute` is 300 seconds. -/
def getRetryDelay (attempt : Nat) (authFailed notLoggedIn : Bool) : Nat :=
  if notLoggedIn then 30
  else if authFailed then 60
  else if attempt = 1 then 0
  else if attempt ≤ 4 then 5
  else if attempt ≤ 7 then 15
  else if attempt ≤ 10 then 30
  else if attempt ≤ 15 then 60
  else 300

/-- The backoff table exactly as the specification states it (§4.5):
flag rows first, then the attempt ranges written as two-sided bounds. -/
def specRetryDelay (attempt : Nat) (authFailed notLoggedIn : Bool) : Nat :=
  if notLoggedIn then 30
  else if authFailed then 60
  else if attempt = 1 then 0
  else if 2 ≤ attempt ∧ attempt ≤ 4 then 5
  else if 5 ≤ attempt ∧ attempt ≤ 7 then 15
  else if 8 ≤ attempt ∧ attempt ≤ 10 then 30
  else if 11 ≤ attempt ∧ attempt ≤ 15 then 60
  else 300

/-! ## Text/binary message conversion — `MessageToBinary` / `BinaryToMessage` -/

/-- Text-format message: Go struct `Message`.  `Type` stays a Lean
`String` since the source only compares it against the known literals;
`ID`, `Addr` and `Data` are byte sequences like every other Go string in
this embedding (`Data` holds the base64 text in the old format, but the
conversions never look inside it). -/
structure Message where
  type : String
  id : List Nat
  addr : List Nat
  data : List Nat
  deriving DecidableEq

/-- `MessageToBinary`: `bm` starts from the zero value with `ID` and
`Addr` copied; the switch maps the known type strings to the byte codes
0..10 and an unmatched string leaves `Type` at 0.  Only the `"data"` arm
copies the payload — every other arm leaves `Data` nil. -/
def messageToBinary (m : Message) : BinaryMessage :=
  { type :=
      match m.type with
      | "auth" => 0
      | "auth_success" => 1
      | "error" => 2
      | "connect" => 3
      | "connected" => 4
      | "data" => 5
      | "close" => 6
      | "ping" => 7
      | "pong" => 8
      | "address" => 9
      | "uid-register" => 10
      | _ => 0
    id := m.id
    addr := m.addr
    data := if m.type = "data" then m.data else [] }

/-- `BinaryToMessage`: `ID`, `Addr` and `Data` are copied unconditionally
(`string(bm.Data)`), and the switch maps the byte codes back to the type
strings; an unknown code leaves `Type` at its zero value `""`. -/
def binaryToMessage (bm : BinaryMessage) : Message :=
  { type :=
      match bm.type with
      | 0 => "auth"
      | 1 => "auth_success"
      | 2 => "error"
      | 3 => "connect"
      | 4 => "connected"
      | 5 => "data"
      | 6 => "close"
      | 7 => "ping"
      | 8 => "pong"
      | 9 => "address"
      | 10 => "uid-register"
      | _ => ""
    id := bm.id
    addr := bm.addr
    data := bm.data }

/-- The 11 type strings the conversion switches recognise. -/
def knownMessageTypes : List String :=
  ["auth", "auth_success", "error", "connect", "connected", "data",
   "close", "ping", "pong", "address", "uid-register"]

/-! ## DNS-fallback dial — `dialWithDNSFallback` in `conn/connection.go` -/

/-- Does `pat` start the character list `l`? (helper for the substring
test below). -/
def charsStartWith : List Char → List Char → Bool
  | [], _ => true
  | _ :: _, [] => false
  | a :: as, b :: bs => a == b && charsStartWith as bs

/-- Does `pat` occur as a contiguous run inside `l`? -/
def charsContain (pat : List Char) : List Char → Bool
  | [] => pat.isEmpty
  | c :: rest => charsStartWith pat (c :: rest) || charsContain pat rest

/-- Go `strings.Contains(s, pat)`. -/
def strContains (s pat : String) : Bool :=
  charsContain pat.toList s.toList

/-- Go `net.JoinHostPort`: a host containing a colon is bracketed. -/
def joinHostPort (host port : String) : String :=
  if strContains host ":" then "[" ++ host ++ "]:" ++ port
  else host ++ ":" ++ port

/-- Address of the custom fallback resolver (Google DNS), dialed by the
resolver's `Dial` hook. -/
def fallbackResolverAddr : String := "8.8.8.8:53"

/-- Timeout, in seconds, of the dialer inside the custom resolver. -/
def fallbackResolverTimeoutSeconds : Nat := 3

/-- The error-message test that triggers the fallback:
`strings.Contains(err.Error(), "no such host") ||
strings.Contains(err.Error(), "Temporary failure")`. -/
def resolveFailureTrigger (msg : String) : Bool :=
  strContains msg "no such host" || strContains msg "Temporary failure"

/-- Environment of one `dialWithDNSFallback` call.  A connection is an
opaque token (`Nat`); errors carry their message string.  `dial1` is the
outcome of the first `dialer.DialContext` on the requested address;
`split` is the outcome of `net.SplitHostPort(address)`; `lookup host
resolverAddr timeoutSec` is the outcome of `resolver.LookupHost` where the
resolver dials `resolverAddr` with the given timeout; `dial2` is the
outcome of the second `dialer.DialContext` as a function of the address it
is given. -/
structure DialEnv where
  dial1 : Except String Nat
  split : Except String (String × String)
  lookup : String → String → Nat → Except String (List String)
  dial2 : String → Except String Nat

/-- Body of the fallback branch of `dialWithDNSFallback` (the block
guarded by the error-message test), given the original error `err`:
a split failure returns the split error; a lookup failure returns the
original error; a non-empty lookup result dials the first returned address
joined with the original port; an empty result falls through to the
original error. -/
def dialFallbackPath (env : DialEnv) (err : String) : Except String Nat :=
  match env.split with
  | .error splitErr => .error splitErr
  | .ok hp =>
    match env.lookup hp.1 fallbackResolverAddr fallbackResolverTimeoutSeconds with
    | .error _ => .error err
    | .ok ips =>
      match ips with
      | [] => .error err
      | ip :: _ => env.dial2 (joinHostPort ip hp.2)

/-- `dialWithDNSFallback`, returning the result together with a flag
recording whether the custom-resolver fallback branch was entered. -/
def dialWithDNSFallback (env : DialEnv) : Except String Nat × Bool :=
  match env.dial1 with
  | .ok c => (.ok c, false)
  | .error err =>
    if resolveFailureTrigger err then (dialFallbackPath env err, true)
    else (.error err, false)

/-- Concrete environment witnessing the fallback path: the system dial
fails with a resolution error, the custom resolver returns one address,
and the dial to that address succeeds. -/
def dialEnvExample : DialEnv where
  dial1 := .error "dial tcp: lookup unreachable.invalid: no such host"
  split := .ok ("unreachable.invalid", "80")
  lookup := fun _ _ _ => .ok ["192.0.2.9"]
  dial2 := fun a => if a = "192.0.2.9:80" then .ok 7 else .error "connection refused"

/-! ## Sub-connection lifecycle — `handleConnect`, `sendCloseMessage`,
the relay tasks and the `quicReader` DATA dispatch.

The sub-connection table `clientConns` is modelled as an association list
from id to the observable state of the sub-connection's bounded inbound
channel (its queued byte slices, oldest first).  Frames attempted on the
serialized writer are collected in a list; a `sendMessage` call counts as
an emission whether or not the underlying stream write succeeds. -/

/-- Contents of one sub-connection's `dataChan`. -/
abbrev DataQueue := List (List Nat)

/-- The `clientConns` table: keys unique. -/
abbrev ConnTable := List (String × DataQueue)

/-- Go map read `clientConns[id]`. -/
def tableLookup (t : ConnTable) (id : String) : Option DataQueue :=
  match t with
  | [] => none
  | p :: rest => if p.1 = id then some p.2 else tableLookup rest id

/-- Go map write `clientConns[id] = cc`: replaces an existing binding. -/
def tableInsert (t : ConnTable) (id : String) (q : DataQueue) : ConnTable :=
  match t with
  | [] => [(id, q)]
  | p :: rest => if p.1 = id then (id, q) :: rest else p :: tableInsert rest id q

/-- Go `delete(clientConns, id)`. -/
def tableErase (t : ConnTable) (id : String) : ConnTable :=
  t.filter (fun p => !(p.1 == id))

/-- Capacity of each sub-connection's inbound channel:
`make(chan []byte, 10000)`. -/
def dataChanCapacity : Nat := 10000

/-- Frames the agent can attempt on the writer in the paths modelled
here. -/
inductive Frame where
  | connected (id : String)
  | data (id : String) (payload : List Nat)
  | close (id : String)
  deriving DecidableEq

/-- `sendCloseMessage(id)`: sends one `close` frame (unconditionally —
the send is attempted whether or not the id is in the table), then closes
and removes the table entry for `id` when present.  Removing an absent key
is a no-op, so the table effect is an erase. -/
def sendCloseMessage (t : ConnTable) (id : String) : List Frame × ConnTable :=
  ([Frame.close id], tableErase t id)

/-- Outcomes of the I/O actions inside one `handleConnect` call:
whether `dialWithDNSFallback` succeeded, whether sending the `connected`
confirmation succeeded, and whether the write of the initial payload
succeeded (consulted only when there is an initial payload). -/
structure ConnectEnv where
  dialOk : Bool
  confirmOk : Bool
  initialWriteOk : Bool

/-- `handleConnect(msg)`: returns the frames attempted on the writer, the
resulting table, and whether the two relay tasks were spawned.
Dial failure: `sendCloseMessage` and return — nothing was inserted.
Dial success: insert the sub-connection, attempt the `connected`
confirmation (on failure: close the socket and return, leaving the table
entry and sending no close frame), write the initial payload if non-empty
(on failure: `sendCloseMessage` and return), then spawn the relays. -/
def handleConnect (env : ConnectEnv) (t : ConnTable) (id : String)
    (initialData : List Nat) : List Frame × ConnTable × Bool :=
  if env.dialOk = false then
    let s := sendCloseMessage t id
    (s.1, s.2, false)
  else
    let t1 := tableInsert t id []
    if env.confirmOk = false then
      ([Frame.connected id], t1, false)
    else if initialData ≠ [] ∧ env.initialWriteOk = false then
      let s := sendCloseMessage t1 id
      (Frame.connected id :: s.1, s.2, false)
    else
      ([Frame.connected id], t1, true)

/-- Whether this `handleConnect` call executed the insertion
`clientConns[msg.ID] = cc`: exactly when the dial succeeded. -/
def connectInserted (env : ConnectEnv) : Bool := env.dialOk

/-- Frames attempted by `relayFromConnToQuic` over its lifetime: one
`data` frame per non-empty socket read (`if n == 0 { continue }`),
followed by the deferred `sendCloseMessage`.  `reads` lists the chunks the
socket delivered before the read that errored. -/
def relayFromConnToQuicFrames (id : String) (reads : List (List Nat)) : List Frame :=
  (reads.filter (fun c => !c.isEmpty)).map (fun c => Frame.data id c)
    ++ [Frame.close id]

/-- Frames attempted by `relayFromChanToConn` over its lifetime: only the
deferred `sendCloseMessage` (its writes go to the socket, not the
writer). -/
def relayFromChanToConnFrames (id : String) : List Frame :=
  [Frame.close id]

/-- All frames attempted on the writer for one inbound CONNECT over the
sub-connection's whole lifetime.  When the relay tasks are spawned, both
eventually exit — the first to exit runs `sendCloseMessage`, which closes
the socket and the channel and thereby ends the other — and each exit
appends its deferred frames. -/
def connectLifecycleFrames (env : ConnectEnv) (t : ConnTable) (id : String)
    (initialData : List Nat) (reads : List (List Nat)) : List Frame :=
  let h := handleConnect env t id initialData
  h.1 ++
    (if h.2.2 then relayFromConnToQuicFrames id reads ++ relayFromChanToConnFrames id
     else [])

/-- Does this frame equal `CLOSE(id)`? -/
def isCloseFor (id : String) : Frame → Bool
  | Frame.close j => j == id
  | _ => false

/-- How many `CLOSE(id)` frames a frame list contains. -/
def countClose (fs : List Frame) (id : String) : Nat :=
  fs.countP (isCloseFor id)

/-- The `"data"` dispatch arm of `quicReader`: look the id up under the
shared lock (an unknown id is ignored), base64-decode the payload (a
decode error is ignored), then offer the bytes to the channel with a
non-blocking send: append when the channel has room, drop the payload with
a warning when it is full.  `decoded` is the outcome of
`base64.StdEncoding.DecodeString(msg.Data)`. -/
def handleData (t : ConnTable) (id : String) (decoded : Option (List Nat)) :
    ConnTable :=
  match tableLookup t id with
  | none => t
  | some q =>
    match decoded with
    | none => t
    | some bytes =>
      if q.length < dataChanCapacity then tableInsert t id (q ++ [bytes])
      else t

/-! ## Server discovery and selection — `conn/server_discovery.go` -/

/-- An endpoint candidate: the fields of `ServerInfo` that the selection
logic reads (`Name` is only logged; `ID`, `Region` and the raw connection
counts are never consulted).  `utilization` is the JSON
`utilization_percent` float, modelled as an exact rational. -/
structure ServerInfo where
  name : String
  address : String
  status : String
  utilization : ℚ
  deriving DecidableEq

/-- `TestLatency(address)` in milliseconds.  `probe` models the TCP dial
of the candidate's host on port 443 with a 3-second deadline; a failed
dial is reported as 5 seconds = 5000 ms. -/
def testLatency (probe : String → Option Nat) (address : String) : Nat :=
  match probe address with
  | some ms => ms
  | none => 5000

/-- One entry of the `scores` slice in `SelectBestServer`. -/
structure ScoredServer where
  server : ServerInfo
  latency : Nat
  score : ℚ
  deriving DecidableEq

/-- The scoring loop of `SelectBestServer`: servers above 90% utilization
are skipped before any probe; each remaining server is probed and scored
`loadScore*0.6 + latencyScore*0.4` with `latencyScore = latency_ms /
10`. -/
def scoreEntries (probe : String → Option Nat) :
    List ServerInfo → List ScoredServer
  | [] => []
  | s :: rest =>
    if s.utilization > 90 then scoreEntries probe rest
    else
      { server := s, latency := testLatency probe s.address,
        score := s.utilization * 0.6 +
          ((testLatency probe s.address : ℚ) / 10) * 0.4 } :: scoreEntries probe rest

/-- One step of the Go minimum-scan `if f(s) < f(best) { best = s }`:
ties keep the earlier element. -/
def pickBetter {α : Type} (f : α → ℚ) (best s : α) : α :=
  if f s < f best then s else best

/-- The Go scan `best := xs[0]; for _, s := range xs[1:] { ... }` applied
to first element `a` and remainder `l`. -/
def loopMin {α : Type} (f : α → ℚ) (a : α) (l : List α) : α :=
  l.foldl (pickBetter f) a

/-- The body of `SelectBestServer` after the healthy fallback, acting on
the non-empty `healthy` slice: the single-candidate shortcut, then the
scoring loop; an empty `scores` slice (all candidates overloaded) selects
the least-utilized healthy candidate with no probe.  The `[]` arm is
unreachable — every caller passes a non-empty list. -/
def selectAmongHealthy (probe : String → Option Nat) :
    List ServerInfo → Except String String
  | [] => .error "no servers available"
  | [h] => .ok h.address
  | h :: rest =>
    match scoreEntries probe (h :: rest) with
    | [] => .ok (loopMin (fun s => s.utilization) h rest).address
    | sc :: scRest => .ok (loopMin (fun e => e.score) sc scRest).server.address

/-- The healthy filter with its fallback: keep candidates whose status is
`"healthy"`; when none remain, fall back to the full list (with a
warning). -/
def healthyOrAll (servers : List ServerInfo) : List ServerInfo :=
  let healthy0 := servers.filter (fun s => s.status == "healthy")
  if healthy0.isEmpty then servers else healthy0

/-- `SelectBestServer`: empty input errors; otherwise filter to healthy
candidates, falling back to the full list when none are healthy, and
select. -/
def selectBestServer (probe : String → Option Nat)
    (servers : List ServerInfo) : Except String String :=
  match servers with
  | [] => .error "no servers available"
  | _ :: _ => selectAmongHealthy probe (healthyOrAll servers)

/-- The score formula in the words of the specification:
`score = 0.6·utilization_percent + 0.4·(latency_ms / 10)`. -/
def specScore (probe : String → Option Nat) (s : ServerInfo) : ℚ :=
  0.6 * s.utilization + 0.4 * ((testLatency probe s.address : ℚ) / 10)

/-- Modelled from the claim's words (C5): keep healthy candidates
(falling back to the full list when none are healthy); drop candidates
with utilization above 90% before any probe; if that empties the set,
return the least-utilized of the healthy set; otherwise score each
remaining candidate and return the minimum-score address, ties broken by
earlier position. -/
def selectBestServerSpec (probe : String → Option Nat)
    (servers : List ServerInfo) : Option String :=
  match servers with
  | [] => none
  | _ :: _ =>
    match healthyOrAll servers with
    | [] => none
    | h :: hrest =>
      some (match (h :: hrest).filter (fun s => decide (s.utilization ≤ 90)) with
            | [] => (loopMin (fun s => s.utilization) h hrest).address
            | k :: krest => (loopMin (specScore probe) k krest).address)

/-- Shared helper: record a scored entry for one server. -/
def toScored (probe : String → Option Nat) (s : ServerInfo) : ScoredServer :=
  { server := s, latency := testLatency probe s.address,
    score := s.utilization * 0.6 + ((testLatency probe s.address : ℚ) / 10) * 0.4 }

/-- Convert an `Except` result to an `Option`, forgetting the error
message. -/
def exceptToOption {ε α : Type} : Except ε α → Option α
  | .ok a => some a
  | .error _ => none

/-- Outcome of the HTTP GET in `DiscoverServers`: the request can fail
outright; otherwise it has a status code and a body that either decodes to
the server list or does not (the `recommended` field of the response is
never read). -/
inductive HttpFetch where
  | fail
  | resp (status : Nat) (body : Option (List ServerInfo))

/-- `DiscoverServers`: error on request failure, non-200 status, an
undecodable body, or an empty server list. -/
def discoverServers (h : HttpFetch) : Except String (List ServerInfo) :=
  match h with
  | .fail => .error "failed to fetch server list"
  | .resp status body =>
    if status ≠ 200 then .error "API returned non-OK status"
    else
      match body with
      | none => .error "failed to decode response"
      | some servers =>
        if servers.isEmpty then .error "no servers available"
        else .ok servers

/-- The hard-wired address `GetOptimalServer` returns in debug mode. -/
def debugServerAddr : String := "127.0.0.1:8443"

/-- `GetOptimalServer(apiURL, fallbackAddr)`: in debug mode, return the
localhost address without any discovery; otherwise discover (any error
falls back to `fallbackAddr`), then select (any error falls back to
`fallbackAddr`). -/
def getOptimalServer (debugMode : Bool) (http : HttpFetch)
    (probe : String → Option Nat) (fallbackAddr : String) : String :=
  if debugMode then debugServerAddr
  else
    match discoverServers http with
    | .error _ => fallbackAddr
    | .ok servers =>
      match selectBestServer probe servers with
      | .error _ => fallbackAddr
      | .ok addr => addr

/-- A fetch that succeeds with one healthy candidate. -/
def httpOneServer : HttpFetch :=
  .resp 200 (some [⟨"A", "a.example:8443", "healthy", 10⟩])

/-! ## Configuration persistence — `Config`, `SaveConfig`, the keyring -/

/-- The `Config` struct.  `APIToken` carries the tag `json:"-"`;
`UserID`, `Email`, `VerboseLogging` and `AutoStart` carry `omitempty`;
`AutoStart` is a pointer, so `none` models nil (absent). -/
structure Config where
  serverURL : String
  apiToken : String
  userID : String
  email : String
  verboseLogging : Bool
  autoStart : Option Bool
  deriving DecidableEq

/-- `KeyringService`, the service identifier of the OS credential
store. -/
def keyringService : String := "vyx-proxy-client"

/-- Escaping of one character by Go `encoding/json` (quote, backslash,
the common control characters, and the HTML-safe escapes; other control
characters below 0x20 are not produced by any field this file reasons
about). -/
def escapeJSONChar (c : Char) : String :=
  if c = '"' then "\\\""
  else if c = '\\' then "\\\\"
  else if c = '\n' then "\\n"
  else if c = '\r' then "\\r"
  else if c = '\t' then "\\t"
  else if c = '<' then "\\u003c"
  else if c = '>' then "\\u003e"
  else if c = '&' then "\\u0026"
  else String.singleton c

/-- JSON string-body escaping. -/
def escapeJSONString (s : String) : String :=
  String.join (s.toList.map escapeJSONChar)

/-- A JSON string literal. -/
def quoteJSON (s : String) : String :=
  "\"" ++ escapeJSONString s ++ "\""

/-- The `key: value` lines of `json.MarshalIndent(config, "", "  ")` in
struct field order.  `APIToken` never appears (tag `json:"-"`); the
`omitempty` fields are omitted at their zero values (`""`, `false`,
nil). -/
def configJSONFields (c : Config) : List String :=
  [quoteJSON "server_url" ++ ": " ++ quoteJSON c.serverURL]
    ++ (if c.userID = "" then []
        else [quoteJSON "user_id" ++ ": " ++ quoteJSON c.userID])
    ++ (if c.email = "" then []
        else [quoteJSON "email" ++ ": " ++ quoteJSON c.email])
    ++ (if c.verboseLogging = false then []
        else [quoteJSON "verbose_logging" ++ ": true"])
    ++ (match c.autoStart with
        | none => []
        | some b => [quoteJSON "auto_start" ++ ": " ++ (if b then "true" else "false")])

/-- Comma-and-indent joining of the field lines. -/
def joinFields : List String → String
  | [] => ""
  | [f] => f
  | f :: rest => f ++ ",\n  " ++ joinFields rest

/-- The JSON bytes `SaveConfig` writes to `config.json`. -/
def marshalConfig (c : Config) : String :=
  "\x7b\n  " ++ joinFields (configJSONFields c) ++ "\n\x7d"

/-- `SaveConfig`: the keyring write (service, account, token — performed
only when both token and user id are non-empty) paired with the JSON bytes
written to the file. -/
def saveConfig (c : Config) : Option (String × String × String) × String :=
  (if c.apiToken ≠ "" ∧ c.userID ≠ ""
   then some (keyringService, c.userID, c.apiToken) else none,
   marshalConfig c)

end Vyx

namespace Vyx

/-! ## Round-trip lemmas for the binary codec -/

theorem readU16_encodeU16 (n : Nat) (h : n ≤ 65535) (rest : List Nat) :
    readU16 (encodeU16 n ++ rest) = some (n, rest) := by
  simp only [encodeU16, readU16, readByte, List.cons_append, List.nil_append]
  congr 1
  congr 1
  omega

theorem readU32_encodeU32 (n : Nat) (h : n ≤ 4294967295) (rest : List Nat) :
    readU32 (encodeU32 n ++ rest) = some (n, rest) := by
  simp only [encodeU32, readU32, readU16, readByte, List.cons_append, List.nil_append]
  congr 1
  congr 1
  omega

theorem readBytes_exact (l rest : List Nat) :
    readBytes l.length (l ++ rest) = some (l, rest) := by
  simp [readBytes, List.take_left, List.drop_left]

theorem readChunk_pos (n : Nat) (hn : 0 < n) (s : List Nat) :
    readChunk n s = readBytes n s := by
  simp [readChunk, hn]

theorem readChunk_guarded (l : List Nat) (h : l.length ≤ 65535) (rest : List Nat) :
    readChunk l.length ((if l.length % 65536 > 0 then l else []) ++ rest) =
      some (l, rest) := by
  rcases l with _ | ⟨b, bs⟩
  · simp [readChunk]
  · have hlt : (b :: bs).length % 65536 = (b :: bs).length :=
      Nat.mod_eq_of_lt (by omega)
    rw [hlt, if_pos (by simp), readChunk_pos _ (by simp)]
    exact readBytes_exact (b :: bs) rest

theorem readChunk_guarded32 (l : List Nat) (h : l.length ≤ 4294967295)
    (rest : List Nat) :
    readChunk l.length ((if l.length % 4294967296 > 0 then l else []) ++ rest) =
      some (l, rest) := by
  rcases l with _ | ⟨b, bs⟩
  · simp [readChunk]
  · have hlt : (b :: bs).length % 4294967296 = (b :: bs).length :=
      Nat.mod_eq_of_lt (by omega)
    rw [hlt, if_pos (by simp), readChunk_pos _ (by simp)]
    exact readBytes_exact (b :: bs) rest

/-- C1: for every frame whose id and addr are at most 65535 bytes, whose
payload is at most 2^32-1 bytes, and whose type code is one of 0..10,
decoding the bytes produced by encoding the frame yields the frame back
(and consumes the whole stream). -/
theorem binary_roundtrip (msg : BinaryMessage)
    (hty : msg.type ≤ 10)
    (hid : msg.id.length ≤ 65535)
    (haddr : msg.addr.length ≤ 65535)
    (hdata : msg.data.length ≤ 4294967295) :
    readBinaryMessage (writeBinaryMessage msg) = some (msg, []) := by
  cases msg with
  | mk t id addr data =>
  simp only [writeBinaryMessage, readBinaryMessage, List.cons_append,
    List.nil_append, List.append_assoc]
  rw [show (if data.length % 4294967296 > 0 then data else []) =
      (if data.length % 4294967296 > 0 then data else []) ++ [] from
      (List.append_nil _).symm]
  simp only [readByte, Option.some_bind',
    readU16_encodeU16 id.length hid,
    readU16_encodeU16 addr.length haddr,
    readU32_encodeU32 data.length hdata,
    readChunk_guarded id hid,
    readChunk_guarded addr haddr,
    readChunk_guarded32 data hdata,
    Option.map_some']

/-- C1 witness: a concrete frame with type code 6 (CLOSE) round-trips. -/
theorem binary_roundtrip_witness :
    (⟨6, [120], [104, 58, 49], [7, 8]⟩ : BinaryMessage).type ≤ 10 ∧
    readBinaryMessage (writeBinaryMessage ⟨6, [120], [104, 58, 49], [7, 8]⟩) =
      some (⟨6, [120], [104, 58, 49], [7, 8]⟩, []) :=
  ⟨by decide,
    binary_roundtrip ⟨6, [120], [104, 58, 49], [7, 8]⟩
      (by decide) (by decide) (by decide) (by decide)⟩

/-- C3: for every attempt index `n ≥ 1` and flag pair, the computed retry
delay equals the specification's backoff table. -/
theorem retry_delay_matches_spec (n : Nat) (hn : 1 ≤ n)
    (authFailed notLoggedIn : Bool) :
    getRetryDelay n authFailed notLoggedIn =
      specRetryDelay n authFailed notLoggedIn := by
  cases notLoggedIn <;> cases authFailed <;>
    simp only [getRetryDelay, specRetryDelay] <;>
    split_ifs <;> omega

/-- C3 witness: attempt 12 with both flags clear yields 60 seconds on both
sides of the equation. -/
theorem retry_delay_matches_spec_witness :
    getRetryDelay 12 false false = specRetryDelay 12 false false ∧
    getRetryDelay 12 false false = 60 :=
  ⟨retry_delay_matches_spec 12 (by decide) false false, by decide⟩

/-- C10: converting a text message with a known type to binary and back
preserves `Type`, `ID` and `Addr`, and yields the original `Data` exactly
when the type is `"data"` — every other known type comes back with an
empty `Data` field, erasing the payload. -/
theorem message_conversion_roundtrip (m : Message)
    (h : m.type ∈ knownMessageTypes) :
    binaryToMessage (messageToBinary m) =
      { type := m.type, id := m.id, addr := m.addr,
        data := if m.type = "data" then m.data else [] } := by
  obtain ⟨t, i, a, d⟩ := m
  simp only [knownMessageTypes, List.mem_cons, List.mem_singleton,
    List.not_mem_nil, or_false] at h
  rcases h with rfl | rfl | rfl | rfl | rfl | rfl | rfl | rfl | rfl | rfl | rfl <;>
    rfl

/-- C10 witness: a `"ping"` message with a non-empty payload loses it in
the round trip while keeping the other fields. -/
theorem message_conversion_roundtrip_witness :
    ("ping" ∈ knownMessageTypes) ∧
    binaryToMessage (messageToBinary ⟨"ping", [1], [2], [3]⟩) =
      ⟨"ping", [1], [2], []⟩ := by
  refine ⟨by decide, ?_⟩
  have h := message_conversion_roundtrip ⟨"ping", [1], [2], [3]⟩ (by decide)
  simpa using h

/-- C6: the relay dial returns the first dial's connection when it
succeeds; the fallback branch is entered exactly when the first error's
message contains "no such host" or the transient-failure marker; any other
dial error is returned unchanged with no retry; a failure of the custom
resolver (`8.8.8.8:53`, 3-second deadline) returns the original error; a
successful resolution dials the first returned address. -/
theorem dns_fallback_spec (env : DialEnv) :
    (∀ c, env.dial1 = .ok c → dialWithDNSFallback env = (.ok c, false)) ∧
    (∀ m, env.dial1 = .error m →
      (dialWithDNSFallback env).2 = resolveFailureTrigger m) ∧
    (∀ m, env.dial1 = .error m → resolveFailureTrigger m = false →
      (dialWithDNSFallback env).1 = .error m) ∧
    (∀ m hp e, env.dial1 = .error m → resolveFailureTrigger m = true →
      env.split = .ok hp →
      env.lookup hp.1 fallbackResolverAddr fallbackResolverTimeoutSeconds =
        .error e →
      (dialWithDNSFallback env).1 = .error m) ∧
    (∀ m hp ip rest, env.dial1 = .error m → resolveFailureTrigger m = true →
      env.split = .ok hp →
      env.lookup hp.1 fallbackResolverAddr fallbackResolverTimeoutSeconds =
        .ok (ip :: rest) →
      (dialWithDNSFallback env).1 = env.dial2 (joinHostPort ip hp.2)) := by
  refine ⟨?_, ?_, ?_, ?_, ?_⟩
  · intro c h
    simp [dialWithDNSFallback, h]
  · intro m h
    simp only [dialWithDNSFallback, h]
    by_cases ht : resolveFailureTrigger m <;> simp [ht]
  · intro m h ht
    simp [dialWithDNSFallback, h, ht]
  · intro m hp e h ht hs hl
    simp [dialWithDNSFallback, dialFallbackPath, h, ht, hs, hl]
  · intro m hp ip rest h ht hs hl
    simp [dialWithDNSFallback, dialFallbackPath, h, ht, hs, hl]

/-- C6 witness: in the example environment the trigger fires, the
fallback is used, and the connection from the second dial is returned. -/
theorem dns_fallback_spec_witness :
    resolveFailureTrigger "dial tcp: lookup unreachable.invalid: no such host"
      = true ∧
    dialWithDNSFallback dialEnvExample = (.ok 7, true) := by
  have h := dns_fallback_spec dialEnvExample
  have h2 := h.2.1 "dial tcp: lookup unreachable.invalid: no such host" rfl
  have h5 := h.2.2.2.2 "dial tcp: lookup unreachable.invalid: no such host"
    ("unreachable.invalid", "80") "192.0.2.9" [] rfl (by decide) rfl rfl
  refine ⟨by decide, ?_⟩
  have hre : dialEnvExample.dial2 (joinHostPort "192.0.2.9" "80") =
      Except.ok 7 := rfl
  have hflag : resolveFailureTrigger
      "dial tcp: lookup unreachable.invalid: no such host" = true := by decide
  rw [Prod.ext_iff]
  exact ⟨h5.trans hre, h2.trans hflag⟩

/-- C8: an inbound DATA whose sub-connection's inbound channel is full
(at capacity 10000) leaves the table — this queue, every other
sub-connection, and the set of keys — completely unchanged: the payload is
dropped and the dispatch returns. -/
theorem data_dropped_when_queue_full (t : ConnTable) (id : String)
    (q : DataQueue) (bytes : List Nat)
    (hq : tableLookup t id = some q)
    (hfull : dataChanCapacity ≤ q.length) :
    handleData t id (some bytes) = t := by
  simp only [handleData, hq]
  rw [if_neg (Nat.not_lt.mpr hfull)]

/-- C8 witness: a table with one sub-connection whose queue holds exactly
10000 slices is unchanged by a further DATA payload. -/
theorem data_dropped_when_queue_full_witness :
    tableLookup [("x", List.replicate dataChanCapacity ([] : List Nat))] "x" =
      some (List.replicate dataChanCapacity ([] : List Nat)) ∧
    dataChanCapacity ≤ (List.replicate dataChanCapacity ([] : List Nat)).length ∧
    handleData [("x", List.replicate dataChanCapacity ([] : List Nat))] "x"
        (some [1]) =
      [("x", List.replicate dataChanCapacity ([] : List Nat))] :=
  ⟨by simp [tableLookup], by rw [List.length_replicate],
   data_dropped_when_queue_full
     [("x", List.replicate dataChanCapacity ([] : List Nat))] "x"
     (List.replicate dataChanCapacity ([] : List Nat)) [1]
     (by simp [tableLookup]) (by rw [List.length_replicate])⟩

/-! ## Table lemmas shared by the lifecycle theorems -/

theorem tableLookup_erase (t : ConnTable) (id : String) :
    tableLookup (tableErase t id) id = none := by
  induction t with
  | nil => rfl
  | cons p rest ih =>
    by_cases h : p.1 = id
    · simpa [tableErase, List.filter_cons, h] using ih
    · simp [tableErase, List.filter_cons, tableLookup, h] at ih ⊢
      exact ih

theorem tableErase_of_absent (t : ConnTable) (id : String)
    (h : tableLookup t id = none) : tableErase t id = t := by
  induction t with
  | nil => rfl
  | cons p rest ih =>
    by_cases hp : p.1 = id
    · simp [tableLookup, hp] at h
    · simp only [tableLookup, if_neg hp] at h
      show List.filter (fun q => !(q.1 == id)) (p :: rest) = p :: rest
      rw [List.filter_cons, if_pos (by simp [hp])]
      exact congrArg (List.cons p) (ih h)

theorem countP_data_frames (id : String) (l : List (List Nat)) :
    (l.map (fun chunk => Frame.data id chunk)).countP (isCloseFor id) = 0 := by
  induction l with
  | nil => rfl
  | cons x xs ih => simp [List.countP_cons, isCloseFor, ih]

/-- C2 counterexample: in the ordinary success path (dial, confirmation
and relays all fine) the CONNECT inserts its entry and the lifecycle emits
two outbound CLOSE frames — one from each relay task's deferred
`sendCloseMessage` — not exactly one. -/
theorem connect_close_exactly_once_counterexample :
    connectInserted ⟨true, true, true⟩ = true ∧
    countClose (connectLifecycleFrames ⟨true, true, true⟩ [] "x" [] []) "x" = 2 ∧
    countClose (connectLifecycleFrames ⟨true, true, true⟩ [] "x" [] []) "x" ≠ 1 := by
  decide

/-- C2 (amended): a CONNECT that reaches the table is followed by zero
outbound CLOSE frames when sending the CONNECTED confirmation fails, by
exactly one when writing the initial payload fails, and by exactly two —
one from each relay task's cleanup — in every other case, assuming both
relay tasks eventually exit. -/
theorem connect_close_count (env : ConnectEnv) (t : ConnTable) (id : String)
    (initialData : List Nat) (reads : List (List Nat))
    (h : connectInserted env = true) :
    countClose (connectLifecycleFrames env t id initialData reads) id =
      (if env.confirmOk = false then 0
       else if initialData ≠ [] ∧ env.initialWriteOk = false then 1
       else 2) := by
  obtain ⟨d, c, w⟩ := env
  simp only [connectInserted] at h
  subst h
  cases c <;> cases w <;> rcases initialData with _ | ⟨b, bs⟩ <;>
    simp [connectLifecycleFrames, handleConnect, sendCloseMessage,
      relayFromConnToQuicFrames, relayFromChanToConnFrames, countClose,
      List.countP_append, List.countP_cons, countP_data_frames, isCloseFor]

/-- C2 witness: a successful CONNECT with one relayed chunk emits exactly
two CLOSE frames over its lifetime. -/
theorem connect_close_count_witness :
    connectInserted ⟨true, true, true⟩ = true ∧
    countClose (connectLifecycleFrames ⟨true, true, true⟩ [] "w" [] [[5]]) "w"
      = 2 := by
  refine ⟨by decide, ?_⟩
  have h := connect_close_count ⟨true, true, true⟩ [] "w" [] [[5]] (by decide)
  simpa using h

/-- C7 counterexample: a CONNECT whose dial fails, arriving while the
table already holds an entry for the same id, leaves the table changed —
`sendCloseMessage` removes the pre-existing entry. -/
theorem connect_dial_failure_counterexample :
    (handleConnect ⟨false, true, true⟩ [("y", [[9]])] "y" []).1 =
      [Frame.close "y"] ∧
    (handleConnect ⟨false, true, true⟩ [("y", [[9]])] "y" []).2.1 = [] ∧
    ([] : ConnTable) ≠ [("y", [[9]])] := by
  decide

/-- C7 (amended): when the dial fails, the handler attempts exactly one
CLOSE frame and no CONNECTED frame, spawns nothing, inserts nothing — the
resulting table is the erase of the id, it holds no entry for the id, and
it equals the original table whenever the id was not already present. -/
theorem connect_dial_failure (env : ConnectEnv) (t : ConnTable) (id : String)
    (initialData : List Nat) (h : env.dialOk = false) :
    (handleConnect env t id initialData).1 = [Frame.close id] ∧
    (handleConnect env t id initialData).2.1 = tableErase t id ∧
    (handleConnect env t id initialData).2.2 = false ∧
    tableLookup (handleConnect env t id initialData).2.1 id = none ∧
    (tableLookup t id = none →
      (handleConnect env t id initialData).2.1 = t) := by
  refine ⟨?_, ?_, ?_, ?_, ?_⟩
  · simp [handleConnect, sendCloseMessage, h]
  · simp [handleConnect, sendCloseMessage, h]
  · simp [handleConnect, sendCloseMessage, h]
  · simp [handleConnect, sendCloseMessage, h, tableLookup_erase]
  · intro hnone
    simp [handleConnect, sendCloseMessage, h, tableErase_of_absent t id hnone]

/-- C7 witness: a failing CONNECT for a fresh id emits one CLOSE, no
CONNECTED, and leaves the empty table empty. -/
theorem connect_dial_failure_witness :
    (⟨false, true, true⟩ : ConnectEnv).dialOk = false ∧
    tableLookup ([] : ConnTable) "y" = none ∧
    (handleConnect ⟨false, true, true⟩ [] "y" []).1 = [Frame.close "y"] ∧
    (handleConnect ⟨false, true, true⟩ [] "y" []).2.1 = [] := by
  have h := connect_dial_failure ⟨false, true, true⟩ [] "y" [] rfl
  exact ⟨rfl, rfl, h.1, h.2.2.2.2 rfl⟩

/-! ## Selection lemmas shared by the discovery theorems -/

theorem scoreEntries_eq (probe : String → Option Nat) (l : List ServerInfo) :
    scoreEntries probe l =
      (l.filter (fun s => decide (s.utilization ≤ 90))).map (toScored probe) := by
  induction l with
  | nil => rfl
  | cons s rest ih =>
    by_cases h : s.utilization > 90
    · have hd : decide (s.utilization ≤ 90) = false := by
        simp [not_le.mpr h]
      simp [scoreEntries, List.filter_cons, h, hd, ih]
    · have hd : decide (s.utilization ≤ 90) = true := by
        simp [not_lt.mp h]
      simp [scoreEntries, List.filter_cons, h, hd, ih, toScored]

theorem loopMin_map {α β : Type} (f : β → ℚ) (g : α → β) (a : α)
    (l : List α) :
    loopMin f (g a) (l.map g) = g (loopMin (fun x => f (g x)) a l) := by
  induction l generalizing a with
  | nil => rfl
  | cons s rest ih =>
    simp only [List.map_cons, loopMin, List.foldl_cons]
    have hp : pickBetter f (g a) (g s) = g (pickBetter (fun x => f (g x)) a s) := by
      unfold pickBetter
      by_cases h : f (g s) < f (g a) <;> simp [h]
    rw [hp]
    exact ih (pickBetter (fun x => f (g x)) a s)

theorem loopMin_congr {α : Type} (f g : α → ℚ) (h : ∀ x, f x = g x) (a : α)
    (l : List α) : loopMin f a l = loopMin g a l := by
  induction l generalizing a with
  | nil => rfl
  | cons s rest ih =>
    simp only [loopMin, List.foldl_cons]
    have hp : pickBetter f a s = pickBetter g a s := by
      unfold pickBetter
      rw [h s, h a]
    rw [hp]
    exact ih _

theorem loopMin_mem {α : Type} (f : α → ℚ) (a : α) (l : List α) :
    loopMin f a l ∈ a :: l := by
  induction l generalizing a with
  | nil => simp [loopMin]
  | cons s rest ih =>
    have hstep : loopMin f a (s :: rest) = loopMin f (pickBetter f a s) rest := rfl
    rw [hstep]
    have hrec := ih (pickBetter f a s)
    have hp : pickBetter f a s = a ∨ pickBetter f a s = s := by
      unfold pickBetter
      by_cases h : f s < f a <;> simp [h]
    rcases List.mem_cons.mp hrec with heq | hmem
    · rw [heq]
      rcases hp with h2 | h2 <;> rw [h2] <;> simp
    · simp [List.mem_cons, hmem]

theorem toScored_score (probe : String → Option Nat) (s : ServerInfo) :
    (toScored probe s).score = specScore probe s := by
  unfold toScored specScore
  ring

theorem selectAmongHealthy_eq_spec (probe : String → Option Nat)
    (h : ServerInfo) (rest : List ServerInfo) :
    selectAmongHealthy probe (h :: rest) =
      .ok (match (h :: rest).filter (fun s => decide (s.utilization ≤ 90)) with
           | [] => (loopMin (fun s => s.utilization) h rest).address
           | k :: krest => (loopMin (specScore probe) k krest).address) := by
  rcases rest with _ | ⟨h2, rest2⟩
  · rw [List.filter_cons]
    by_cases hu : h.utilization ≤ 90
    · rw [if_pos (by simpa using hu)]
      rfl
    · rw [if_neg (by simpa using hu)]
      rfl
  · simp only [selectAmongHealthy]
    rw [scoreEntries_eq]
    rcases hk : (h :: h2 :: rest2).filter (fun s => decide (s.utilization ≤ 90))
      with _ | ⟨k, krest⟩
    · rw [hk]
      rfl
    · rw [hk]
      simp only [List.map_cons]
      rw [loopMin_map (fun e => e.score) (toScored probe) k krest]
      rw [loopMin_congr (fun x => (toScored probe x).score) (specScore probe)
        (toScored_score probe) k krest]
      rfl

/-- C5: for every probe outcome and server list, the address
`SelectBestServer` returns is exactly the one the specification's
filter/drop/score procedure computes (and both fail only on the empty
list): keep healthy candidates, falling back to the full list; drop
candidates above 90% utilization before probing; if that empties the set,
return the least-utilized healthy candidate with no probe; otherwise
return the minimum-score candidate, ties broken by earlier position. -/
theorem select_best_server_matches_spec (probe : String → Option Nat)
    (servers : List ServerInfo) :
    exceptToOption (selectBestServer probe servers) =
      selectBestServerSpec probe servers := by
  rcases servers with _ | ⟨s0, srest⟩
  · rfl
  · show exceptToOption (selectAmongHealthy probe (healthyOrAll (s0 :: srest))) =
      (match healthyOrAll (s0 :: srest) with
       | [] => none
       | h :: hrest =>
         some (match (h :: hrest).filter (fun s => decide (s.utilization ≤ 90)) with
               | [] => (loopMin (fun s => s.utilization) h hrest).address
               | k :: krest => (loopMin (specScore probe) k krest).address))
    generalize healthyOrAll (s0 :: srest) = healthy
    rcases healthy with _ | ⟨h, hrest⟩
    · rfl
    · rw [selectAmongHealthy_eq_spec]
      rfl

theorem discoverServers_ok_ne_nil (http : HttpFetch)
    (servers : List ServerInfo) (h : discoverServers http = .ok servers) :
    servers ≠ [] := by
  rcases http with _ | ⟨status, body⟩
  · simp [discoverServers] at h
  · simp only [discoverServers] at h
    by_cases hs : status ≠ 200
    · simp [hs] at h
    · rcases body with _ | ss
      · simp [hs] at h
      · by_cases he : ss.isEmpty = true
        · simp [hs, he] at h
        · simp only [hs, he, if_neg, if_false, Bool.false_eq_true,
            Except.ok.injEq] at h
          subst h
          simpa [List.isEmpty_iff] using he

theorem selectAmongHealthy_mem (probe : String → Option Nat)
    (h : ServerInfo) (rest : List ServerInfo) :
    ∃ a, selectAmongHealthy probe (h :: rest) = .ok a ∧
      a ∈ (h :: rest).map (fun s => s.address) := by
  rcases rest with _ | ⟨h2, rest2⟩
  · exact ⟨h.address, rfl, by simp⟩
  · simp only [selectAmongHealthy]
    rcases hsc : scoreEntries probe (h :: h2 :: rest2) with _ | ⟨sc, scRest⟩
    · refine ⟨_, rfl, ?_⟩
      exact List.mem_map_of_mem _ (loopMin_mem (fun s => s.utilization) h (h2 :: rest2))
    · refine ⟨_, rfl, ?_⟩
      have hsub : ∀ e ∈ scoreEntries probe (h :: h2 :: rest2),
          e.server ∈ h :: h2 :: rest2 := by
        intro e he
        rw [scoreEntries_eq] at he
        obtain ⟨s, hs1, hs2⟩ := List.mem_map.mp he
        have hmem := List.mem_of_mem_filter hs1
        rw [← hs2]
        simpa [toScored] using hmem
      have hserver : (loopMin (fun e => e.score) sc scRest).server ∈
          h :: h2 :: rest2 := by
        apply hsub
        rw [hsc]
        exact loopMin_mem (fun e => e.score) sc scRest
      exact List.mem_map_of_mem _ hserver

theorem healthyOrAll_ne_nil (servers : List ServerInfo) (h : servers ≠ []) :
    healthyOrAll servers ≠ [] := by
  show (if (servers.filter (fun s => s.status == "healthy")).isEmpty
      then servers else servers.filter (fun s => s.status == "healthy")) ≠ []
  by_cases hemp : (servers.filter (fun s => s.status == "healthy")).isEmpty = true
  · rw [if_pos hemp]
    exact h
  · rw [if_neg hemp]
    intro hc
    rw [hc] at hemp
    simp at hemp

theorem healthyOrAll_subset (servers : List ServerInfo) :
    ∀ s ∈ healthyOrAll servers, s ∈ servers := by
  intro s hs
  have hrw : healthyOrAll servers =
      (if (servers.filter (fun q => q.status == "healthy")).isEmpty
       then servers else servers.filter (fun q => q.status == "healthy")) := rfl
  rw [hrw] at hs
  by_cases hemp : (servers.filter (fun q => q.status == "healthy")).isEmpty = true
  · rwa [if_pos hemp] at hs
  · rw [if_neg hemp] at hs
    exact List.mem_of_mem_filter hs

theorem selectBestServer_mem (probe : String → Option Nat)
    (servers : List ServerInfo) (hne : servers ≠ []) :
    ∃ a, selectBestServer probe servers = .ok a ∧
      a ∈ servers.map (fun s => s.address) := by
  rcases servers with _ | ⟨s0, srest⟩
  · exact absurd rfl hne
  · have hone : selectBestServer probe (s0 :: srest) =
        selectAmongHealthy probe (healthyOrAll (s0 :: srest)) := rfl
    rcases hh : healthyOrAll (s0 :: srest) with _ | ⟨h, hrest⟩
    · exact absurd hh (healthyOrAll_ne_nil (s0 :: srest) (by simp))
    · obtain ⟨a, ha, hmem⟩ := selectAmongHealthy_mem probe h hrest
      refine ⟨a, by rw [hone, hh]; exact ha, ?_⟩
      obtain ⟨s, hs1, hs2⟩ := List.mem_map.mp hmem
      have hsmem : s ∈ s0 :: srest := by
        apply healthyOrAll_subset (s0 :: srest)
        rw [hh]
        exact hs1
      exact hs2 ▸ List.mem_map_of_mem _ hsmem

/-- C4 counterexample: in debug mode, discovery succeeds (it is skipped)
yet `GetOptimalServer` returns the hard-wired `127.0.0.1:8443`, which is
neither the fallback address nor any discovered candidate's address. -/
theorem endpoint_selection_counterexample :
    discoverServers httpOneServer =
      .ok [⟨"A", "a.example:8443", "healthy", 10⟩] ∧
    getOptimalServer true httpOneServer (fun _ => some 50) "fb.example:8443" =
      debugServerAddr ∧
    debugServerAddr ≠ "fb.example:8443" ∧
    debugServerAddr ≠ "a.example:8443" := by
  refine ⟨rfl, rfl, by decide, by decide⟩

/-- C4 (amended): with debug mode disabled, endpoint selection never
fails — on any discovery error the result is exactly the fallback
address, and on a successful discovery the result is one of the
discovered candidates' addresses (ranking cannot fail on a non-empty
list).  With debug mode enabled, the fixed address `127.0.0.1:8443` is
returned without discovery. -/
theorem endpoint_selection_fallback (http : HttpFetch)
    (probe : String → Option Nat) (fallbackAddr : String) :
    (∀ e, discoverServers http = .error e →
      getOptimalServer false http probe fallbackAddr = fallbackAddr) ∧
    (∀ servers, discoverServers http = .ok servers →
      getOptimalServer false http probe fallbackAddr ∈
        servers.map (fun s => s.address)) ∧
    (∀ debugHttp : HttpFetch,
      getOptimalServer true debugHttp probe fallbackAddr = debugServerAddr) := by
  refine ⟨?_, ?_, ?_⟩
  · intro e h
    simp [getOptimalServer, h]
  · intro servers h
    have hne := discoverServers_ok_ne_nil http servers h
    obtain ⟨a, ha, hmem⟩ := selectBestServer_mem probe servers hne
    simpa [getOptimalServer, h, ha] using hmem
  · intro debugHttp
    rfl

/-- C4 witness: a failed fetch falls back to the fallback address, and a
successful fetch with one candidate returns that candidate's address. -/
theorem endpoint_selection_fallback_witness :
    getOptimalServer false HttpFetch.fail (fun _ => some 50) "fb.example:8443" =
      "fb.example:8443" ∧
    getOptimalServer false httpOneServer (fun _ => some 50) "fb.example:8443" ∈
      ([⟨"A", "a.example:8443", "healthy", 10⟩] : List ServerInfo).map
        (fun s => s.address) := by
  constructor
  · exact (endpoint_selection_fallback HttpFetch.fail (fun _ => some 50)
      "fb.example:8443").1 "failed to fetch server list" rfl
  · exact (endpoint_selection_fallback httpOneServer (fun _ => some 50)
      "fb.example:8443").2.1 [⟨"A", "a.example:8443", "healthy", 10⟩] rfl

/-- C9: the JSON bytes `SaveConfig` writes are identical for any two
configurations that differ only in the API token field — the token never
reaches the file — and whenever a token and user id are present the token
is routed to the OS credential store under service `vyx-proxy-client` with
the user id as account. -/
theorem config_token_never_serialized :
    (∀ c1 c2 : Config, c1.serverURL = c2.serverURL → c1.userID = c2.userID →
      c1.email = c2.email → c1.verboseLogging = c2.verboseLogging →
      c1.autoStart = c2.autoStart → (saveConfig c1).2 = (saveConfig c2).2) ∧
    (∀ c : Config, c.apiToken ≠ "" → c.userID ≠ "" →
      (saveConfig c).1 = some (keyringService, c.userID, c.apiToken)) := by
  constructor
  · intro c1 c2 h1 h2 h3 h4 h5
    obtain ⟨s1, t1, u1, e1, v1, a1⟩ := c1
    obtain ⟨s2, t2, u2, e2, v2, a2⟩ := c2
    dsimp only at h1 h2 h3 h4 h5
    subst h1 h2 h3 h4 h5
    rfl
  · intro c h1 h2
    simp [saveConfig, h1, h2]

/-- C9 witness: two configurations differing only in their token produce
byte-identical files, and the token goes to the keyring under the expected
service and account. -/
theorem config_token_never_serialized_witness :
    (saveConfig ⟨"proxy.vyx.network", "secret-token-a", "u1", "a@b.c", false,
        none⟩).2 =
      (saveConfig ⟨"proxy.vyx.network", "other-token-b", "u1", "a@b.c", false,
        none⟩).2 ∧
    (saveConfig ⟨"proxy.vyx.network", "secret-token-a", "u1", "a@b.c", false,
        none⟩).1 =
      some (keyringService, "u1", "secret-token-a") :=
  ⟨config_token_never_serialized.1 _ _ rfl rfl rfl rfl rfl,
   config_token_never_serialized.2
     ⟨"proxy.vyx.network", "secret-token-a", "u1", "a@b.c", false, none⟩
     (by decide) (by decide)⟩

end Vyx
